import Mathlib

/-!
Shallow embedding of the Prompt Stash extension sync core.

Sources embedded:
- `src/popup.js`: `validatePrompt`, `mergePrompts`, `savePrompt`,
  `initializeDriveAPI` (the remote-sync step), storage helpers.
- `src/drive-api.js`: `DriveAPI.getAuthToken`, `findOrCreateFolder`,
  `findOrCreateFile`, `updateFileContent`, `getPrompts`, `savePrompts`,
  `addPrompt`.

Remote HTTP traffic is modelled by an environment that yields the outcome of
the k-th HTTP request issued by the client (a response-stream model: the
remote server is not stateful here, each request simply consumes the next
scripted outcome).  JavaScript `Map`/`Set`/`Array.sort` semantics are modelled
by executable Lean functions with the same observable behaviour.
-/

/-- The prompt record created by `savePrompt` in popup.js:
`{ id: Date.now(), name, text, tags, createdAt, updatedAt }`.
`id` is an epoch-millisecond integer; `createdAt`/`updatedAt` are optional
ISO-8601 strings (§3 of the spec: presence varies by schema version). -/
structure Prompt where
  id : Nat
  name : String
  text : String
  tags : List String
  createdAt : Option String := none
  updatedAt : Option String := none
deriving DecidableEq

/-- popup.js constant `MAX_PROMPT_LENGTH = 10000`. -/
def MAX_PROMPT_LENGTH : Nat := 10000

/-- popup.js constant `MAX_NAME_LENGTH = 200`. -/
def MAX_NAME_LENGTH : Nat := 200

/-- popup.js `validatePrompt(name, text)`: returns a reason string on
rejection, `null` (here `none`) on success.  `!name` / `!text` on a string
means "empty string" (the inputs are already trimmed by the caller). -/
def validatePrompt (name text : String) : Option String :=
  if name = "" ∨ text = "" then
    some "Please provide both name and prompt text"
  else if MAX_NAME_LENGTH < name.length then
    some "Name must be less than 200 characters"
  else if MAX_PROMPT_LENGTH < text.length then
    some "Prompt text must be less than 10000 characters"
  else
    none

/-- `new Map(ps.map(p => [p.id, p])).get(i)`: entries are inserted in list
order and a later entry with the same key overwrites an earlier one, so the
lookup returns the **last** entry of `ps` whose `id` is `i`. -/
def mapGet (ps : List Prompt) (i : Nat) : Option Prompt :=
  ps.foldl (fun acc p => if p.id = i then some p else acc) none

/-- Worker for `setDedup`; `seen` holds the keys already emitted. -/
def setDedupAux (seen : List Nat) : List Nat → List Nat
  | [] => []
  | i :: is => if i ∈ seen then setDedupAux seen is else i :: setDedupAux (i :: seen) is

/-- `[...new Set(xs)]`: keeps the first occurrence of each element, in
first-insertion order. -/
def setDedup (xs : List Nat) : List Nat := setDedupAux [] xs

/-- popup.js `mergedPrompts.sort((a, b) => b.id - a.id)`: sort by descending
`id`.  Modelled by a stable insertion sort; on the lists this is applied to,
all `id`s are pairwise distinct, so every comparator-correct sort produces
the same (unique) descending order. -/
def sortByIdDesc (ps : List Prompt) : List Prompt :=
  List.insertionSort (fun a b => b.id ≤ a.id) ps

/-- Body of the merge loop of popup.js `mergePrompts`: for one id, emit
`driveMap.get(id)` if present, else `cachedMap.get(id)` if present, else
nothing. -/
def mergeLookup (cachedPrompts drivePrompts : List Prompt) (i : Nat) : Option Prompt :=
  match mapGet drivePrompts i with
  | some drivePrompt => some drivePrompt
  | none => mapGet cachedPrompts i

/-- popup.js `mergePrompts(cachedPrompts, drivePrompts)`:
empty-input short-circuits, then an identity-keyed union preferring the
drive entry, iterated over `new Set([...cachedMap.keys(), ...driveMap.keys()])`
(first-insertion order), finally sorted by descending id. -/
def mergePrompts (cachedPrompts drivePrompts : List Prompt) : List Prompt :=
  if cachedPrompts.isEmpty then drivePrompts
  else if drivePrompts.isEmpty then cachedPrompts
  else
    let allIds := setDedup ((cachedPrompts.map Prompt.id) ++ (drivePrompts.map Prompt.id))
    sortByIdDesc (allIds.filterMap (mergeLookup cachedPrompts drivePrompts))

/-! ### Remote store client (src/drive-api.js) -/

/-- Decoded essence of an HTTP response body, as the drive-api.js code
consumes it.  `filesList ids` stands for the JSON object
`{"files":[{"id":...},...]}` returned by a Drive search; `createdId i` for
`{"id": i}` returned by a create; `promptsJson ps` for a JSON array of prompt
objects; `notJson s` for a body on which `JSON.parse` (and `response.json()`)
throws; `emptyBody` for the empty string. -/
inductive RespBody where
  | promptsJson (ps : List Prompt)
  | filesList (ids : List String)
  | createdId (id : String)
  | notJson (s : String)
  | emptyBody
deriving DecidableEq

/-- An HTTP response: `response.ok`, `response.status`, and its body. -/
structure HttpResp where
  ok : Bool
  status : Nat
  body : RespBody
deriving DecidableEq

/-- Outcome of one `fetch(...)` call: either a response, or the fetch promise
itself rejects (network unreachable — a transport-level failure). -/
inductive FetchResult where
  | success (r : HttpResp)
  | netError (msg : String)
deriving DecidableEq

/-- The external world the client runs against: the credential provider's
outcome (`chrome.identity.getAuthToken`, deterministic per session), and the
outcome of the k-th HTTP request issued by this client. -/
structure NetEnv where
  token : Except String String
  net : Nat → FetchResult

/-- Mutable fields of the `DriveAPI` instance (`this.folderId`,
`this.fileId`), plus the count of HTTP requests issued so far (the cursor
into `NetEnv.net`). -/
structure ClientState where
  folderId : Option String
  fileId : Option String
  reqCount : Nat
deriving DecidableEq

/-- A fresh `new DriveAPI()` with no requests issued yet. -/
def initialClient : ClientState := { folderId := none, fileId := none, reqCount := 0 }

/-- The error taxonomy of the client, mirroring the distinct JavaScript
exception sources: credential rejection, fetch rejection (transport),
thrown `HTTP ${status}` errors (server-level), `JSON.parse` failures, a
JS `TypeError` (array method on a non-array), and fuel exhaustion `tooDeep`
(modelling the unbounded create/initialize recursion, unreachable for any
well-behaved environment). -/
inductive DriveError where
  | auth (msg : String)
  | net (msg : String)
  | http (status : Nat)
  | decode
  | typeErr
  | tooDeep
deriving DecidableEq

/-- Equality of `Except` results is decidable (used to evaluate the client
on concrete environments). -/
instance {ε α : Type} [DecidableEq ε] [DecidableEq α] : DecidableEq (Except ε α) := fun x y =>
  match x, y with
  | .ok a, .ok b =>
    if h : a = b then .isTrue (h ▸ rfl) else .isFalse (fun hh => h (Except.ok.inj hh))
  | .error a, .error b =>
    if h : a = b then .isTrue (h ▸ rfl) else .isFalse (fun hh => h (Except.error.inj hh))
  | .ok _, .error _ => .isFalse (fun hh => Except.noConfusion hh)
  | .error _, .ok _ => .isFalse (fun hh => Except.noConfusion hh)

/-- Issue one HTTP request: read the next scripted outcome and advance the
request cursor. -/
def doFetch (env : NetEnv) (s : ClientState) : FetchResult × ClientState :=
  (env.net s.reqCount, { s with reqCount := s.reqCount + 1 })

/-- `await response.json()`: parses the body; throws (`decode`) on a body
that is not valid JSON (including the empty string). -/
def respJson (b : RespBody) : Except DriveError RespBody :=
  match b with
  | .notJson _ => .error .decode
  | .emptyBody => .error .decode
  | b => .ok b

/-- `searchData.files`: present only when the parsed body is a search
result object. -/
def filesOf (b : RespBody) : Option (List String) :=
  match b with
  | .filesList ids => some ids
  | _ => none

/-- `parsedBody.id`: present only when the parsed body is a create-result
object; otherwise the JS property access yields `undefined` (here `none`). -/
def bodyId (b : RespBody) : Option String :=
  match b with
  | .createdId i => some i
  | _ => none

/-- drive-api.js `getAuthToken()`: resolves the provider's token or rejects
with the provider's error message.  Issues no HTTP request. -/
def getAuthToken (env : NetEnv) : Except DriveError String :=
  match env.token with
  | .ok t => .ok t
  | .error m => .error (.auth m)

/-- drive-api.js `findOrCreateFolder()`: search for the folder by name
(the response status is *not* checked here), take `files[0].id` if the
search result is non-empty, otherwise create the folder and take the
created object's `id` (which is `undefined` if the body has no `id`).
Every failure (rejected fetch, unparsable body) propagates. -/
def findOrCreateFolder (env : NetEnv) (s : ClientState) :
    Except DriveError (Option String) × ClientState :=
  match getAuthToken env with
  | .error e => (.error e, s)
  | .ok _ =>
    let (r1, s1) := doFetch env s
    match r1 with
    | .netError m => (.error (.net m), s1)
    | .success resp =>
      match respJson resp.body with
      | .error e => (.error e, s1)
      | .ok b =>
        match filesOf b with
        | some (fid :: _) => (.ok (some fid), { s1 with folderId := some fid })
        | _ =>
          let (r2, s2) := doFetch env s1
          match r2 with
          | .netError m => (.error (.net m), s2)
          | .success resp2 =>
            match respJson resp2.body with
            | .error e => (.error e, s2)
            | .ok b2 => (.ok (bodyId b2), { s2 with folderId := bodyId b2 })

/-- drive-api.js `findOrCreateFile()`: resolve the folder, search for
`prompts.json` inside it, take `files[0].id` if found; otherwise create the
file (this create *does* check `response.ok` and throws
`Failed to create file: ${status}`), then run `updateFileContent([])` —
whose body is inlined here because it recursively calls
`findOrCreateFile()` again — and finally return `this.fileId`.
The recursion is bounded by `fuel`; the real code recurses unboundedly if
the server keeps reporting the file missing after creation. -/
def findOrCreateFile (env : NetEnv) : Nat → ClientState →
    Except DriveError (Option String) × ClientState
  | 0, s => (.error .tooDeep, s)
  | fuel + 1, s =>
    match getAuthToken env with
    | .error e => (.error e, s)
    | .ok _ =>
      match findOrCreateFolder env s with
      | (.error e, s1) => (.error e, s1)
      | (.ok _folderId, s1) =>
        let (r1, s2) := doFetch env s1
        match r1 with
        | .netError m => (.error (.net m), s2)
        | .success resp =>
          match respJson resp.body with
          | .error e => (.error e, s2)
          | .ok b =>
            match filesOf b with
            | some (fid :: _) => (.ok (some fid), { s2 with fileId := some fid })
            | _ =>
              let (r2, s3) := doFetch env s2
              match r2 with
              | .netError m => (.error (.net m), s3)
              | .success resp2 =>
                if resp2.ok = false then
                  (.error (.http resp2.status), s3)
                else
                  match respJson resp2.body with
                  | .error e => (.error e, s3)
                  | .ok b2 =>
                    let s4 := { s3 with fileId := bodyId b2 }
                    -- inlined body of `updateFileContent([])`:
                    match getAuthToken env with
                    | .error e => (.error e, s4)
                    | .ok _ =>
                      match findOrCreateFile env fuel s4 with
                      | (.error e, s5) => (.error e, s5)
                      | (.ok _, s5) =>
                        let (r3, s6) := doFetch env s5
                        match r3 with
                        | .netError m => (.error (.net m), s6)
                        | .success resp3 =>
                          if resp3.ok = false then
                            (.error (.http resp3.status), s6)
                          else
                            match respJson resp3.body with
                            | .error e => (.error e, s6)
                            | .ok _ => (.ok s6.fileId, s6)

/-- drive-api.js `updateFileContent(content)`: resolve the file, PATCH the
serialized content, throw on non-ok status, return `response.json()`.
In the response-stream model the request body (`content`) does not influence
the scripted outcomes, so it is carried but not consumed. -/
def updateFileContent (env : NetEnv) (fuel : Nat) (_content : List Prompt)
    (s : ClientState) : Except DriveError RespBody × ClientState :=
  match getAuthToken env with
  | .error e => (.error e, s)
  | .ok _ =>
    match findOrCreateFile env fuel s with
    | (.error e, s1) => (.error e, s1)
    | (.ok _, s1) =>
      let (r, s2) := doFetch env s1
      match r with
      | .netError m => (.error (.net m), s2)
      | .success resp =>
        if resp.ok = false then (.error (.http resp.status), s2)
        else
          match respJson resp.body with
          | .error e => (.error e, s2)
          | .ok b => (.ok b, s2)

/-- What `getPrompts` can hand back: a JSON array of prompts, or (because
`return content ? JSON.parse(content) : []` performs no shape check) any
other successfully parsed JSON value, returned unchanged. -/
inductive MediaDoc where
  | arr (ps : List Prompt)
  | nonArr (b : RespBody)
deriving DecidableEq

/-- The `try` block of drive-api.js `getPrompts()`: token, file resolution,
media download; 404 is mapped to the empty collection, any other non-ok
status throws `HTTP ${status}`, an empty body yields `[]`, an unparsable
body throws from `JSON.parse`. -/
def getPromptsAux (env : NetEnv) (fuel : Nat) (s : ClientState) :
    Except DriveError MediaDoc × ClientState :=
  match getAuthToken env with
  | .error e => (.error e, s)
  | .ok _ =>
    match findOrCreateFile env fuel s with
    | (.error e, s1) => (.error e, s1)
    | (.ok _, s1) =>
      let (r, s2) := doFetch env s1
      match r with
      | .netError m => (.error (.net m), s2)
      | .success resp =>
        if resp.ok = false then
          if resp.status = 404 then (.ok (.arr []), s2)
          else (.error (.http resp.status), s2)
        else
          match resp.body with
          | .emptyBody => (.ok (.arr []), s2)
          | .notJson _ => (.error .decode, s2)
          | .promptsJson ps => (.ok (.arr ps), s2)
          | b => (.ok (.nonArr b), s2)

/-- drive-api.js `getPrompts()`: the whole body sits in `try { ... } catch
(error) { console.error(...); return []; }` — every failure of any kind is
swallowed and the empty collection returned. -/
def getPrompts (env : NetEnv) (fuel : Nat) (s : ClientState) : MediaDoc × ClientState :=
  match getPromptsAux env fuel s with
  | (.ok d, s1) => (d, s1)
  | (.error _, s1) => (.arr [], s1)

/-- drive-api.js `savePrompts(prompts)`: token, file resolution, PATCH
upload, throw `HTTP ${status}` on non-ok status, return `true`.  Its
`catch` logs and **rethrows**, so every failure surfaces to the caller. -/
def savePrompts (env : NetEnv) (fuel : Nat) (prompts : List Prompt)
    (s : ClientState) : Except DriveError Bool × ClientState :=
  match getAuthToken env with
  | .error e => (.error e, s)
  | .ok _ =>
    match findOrCreateFile env fuel s with
    | (.error e, s1) => (.error e, s1)
    | (.ok _, s1) =>
      let (r, s2) := doFetch env s1
      match r with
      | .netError m => (.error (.net m), s2)
      | .success resp =>
        if resp.ok = false then (.error (.http resp.status), s2)
        else (.ok true, s2)

/-- drive-api.js `addPrompt(prompt)`: fetch the remote collection (which
never throws), `unshift` the new prompt (a JS `TypeError` if the fetched
value is not an array), and save; returns the pushed collection. -/
def addPrompt (env : NetEnv) (fuel : Nat) (p : Prompt) (s : ClientState) :
    Except DriveError (List Prompt) × ClientState :=
  let (doc, s1) := getPrompts env fuel s
  match doc with
  | .nonArr _ => (.error .typeErr, s1)
  | .arr ps =>
    let ps2 := p :: ps
    match savePrompts env fuel ps2 s1 with
    | (.ok _, s2) => (.ok ps2, s2)
    | (.error e, s2) => (.error e, s2)

/-- Whether the spec's §4.1 retry policy re-attempts after this error:
transport-level and server-level failures only. -/
def retriable : DriveError → Bool
  | .net _ => true
  | .http _ => true
  | _ => false

/-- Modelled from the spec: §4.1 requires every remote-store operation to be
retried "up to a fixed retry budget (3 attempts)" with linear backoff
(attempt i waits i × baseDelay — the delay has no observable effect in this
functional model), retrying transport- and server-level failures only and
surfacing the last error.  This is the claimed behaviour of
`writeCollection`, built on top of the embedded `savePrompts`, used solely
to compare the claim against the code. -/
def specRetrySavePrompts (env : NetEnv) (fuel : Nat) (prompts : List Prompt)
    (s : ClientState) : Except DriveError Bool × ClientState :=
  match savePrompts env fuel prompts s with
  | (.ok v, s1) => (.ok v, s1)
  | (.error e1, s1) =>
    if retriable e1 then
      match savePrompts env fuel prompts s1 with
      | (.ok v, s2) => (.ok v, s2)
      | (.error e2, s2) =>
        if retriable e2 then savePrompts env fuel prompts s2
        else (.error e2, s2)
    else (.error e1, s1)

/-! ### Sync orchestrator and mutation flow (src/popup.js) -/

/-- The two sync-relevant keys of `chrome.storage.local`: `prompts` and
`lastSync` (§6 persisted local state layout). -/
structure LocalCache where
  prompts : List Prompt
  lastSync : Option Nat
deriving DecidableEq

/-- The popup's module-level mutable state: the in-memory collection
(`currentPrompts`) and the persisted Local Cache. -/
structure SyncState where
  currentPrompts : List Prompt
  cache : LocalCache
deriving DecidableEq

/-- popup.js `saveToStorage(prompts)`: writes the collection and stamps
`Date.now()` as the last-sync time. -/
def saveToStorage (st : SyncState) (ps : List Prompt) (now : Nat) : SyncState :=
  { st with cache := { prompts := ps, lastSync := some now } }

/-- The remote-sync step of popup.js `initializeDriveAPI()` (also the body of
the periodic sync and of `loadPrompts`): given what `driveAPI.getPrompts()`
returned, merge and write through only when the drive collection is a
non-empty array and the merge changed something.  The JS change test
compares `JSON.stringify` outputs; for the typed collections modelled here
that coincides with structural equality.  On a non-array value,
`drivePrompts.length` is `undefined`, so the guard is falsy and nothing
happens. -/
def initializeDriveAPIStep (st : SyncState) (doc : MediaDoc) (now : Nat) : SyncState :=
  match doc with
  | .nonArr _ => st
  | .arr drivePrompts =>
    if drivePrompts.isEmpty then st
    else
      let mergedPrompts := mergePrompts st.currentPrompts drivePrompts
      if mergedPrompts = st.currentPrompts then st
      else { currentPrompts := mergedPrompts,
             cache := { prompts := mergedPrompts, lastSync := some now } }

/-- JavaScript `String.prototype.trim()`: strip whitespace from both ends. -/
def jsTrim (s : String) : String :=
  ⟨List.dropWhile Char.isWhitespace ((List.dropWhile Char.isWhitespace s.data.reverse).reverse)⟩

/-- Worker for `splitOnComma`, accumulating the current segment reversed. -/
def splitCommaAux (acc : List Char) : List Char → List String
  | [] => [⟨acc.reverse⟩]
  | c :: cs =>
    if c = ',' then String.mk acc.reverse :: splitCommaAux [] cs
    else splitCommaAux (c :: acc) cs

/-- JavaScript `s.split(',')` (note `''.split(',')` is `['']`). -/
def splitOnComma (s : String) : List String := splitCommaAux [] s.data

/-- popup.js tag parsing in `savePrompt`:
`(tagsInput?.value || '').split(',').map(s => s.trim()).filter(Boolean)`. -/
def parseTags (tagsRaw : String) : List String :=
  ((splitOnComma tagsRaw).map jsTrim).filter (fun t => t ≠ "")

/-- The popup state as a whole: orchestrator state plus the `DriveAPI`
instance state. -/
structure World where
  sync : SyncState
  client : ClientState
deriving DecidableEq

/-- The prompt object built by `savePrompt()`:
`{ id: Date.now(), name, text, tags, createdAt, updatedAt }` (name and text
trimmed, tags parsed from the comma-separated field). -/
def newPromptOf (nameRaw textRaw tagsRaw : String) (nowMs : Nat) (nowIso : String) : Prompt :=
  { id := nowMs, name := jsTrim nameRaw, text := jsTrim textRaw,
    tags := parseTags tagsRaw, createdAt := some nowIso, updatedAt := some nowIso }

/-- The `try` block of `savePrompt()` after validation has passed: apply the
new prompt to the in-memory collection and the Local Cache first, then
best-effort `driveAPI.addPrompt` whose failure is caught by the inner
`catch (driveError)` and reported as a warning toast, never rolled back. -/
def savePromptCommit (env : NetEnv) (fuel : Nat) (hasDrive : Bool) (w : World)
    (nameRaw textRaw tagsRaw : String) (nowMs : Nat) (nowIso : String) :
    World × String :=
  let newPrompt := newPromptOf nameRaw textRaw tagsRaw nowMs nowIso
  let cur := newPrompt :: w.sync.currentPrompts
  let sync1 : SyncState :=
    { currentPrompts := cur, cache := { prompts := cur, lastSync := some nowMs } }
  if hasDrive then
    match addPrompt env fuel newPrompt w.client with
    | (.ok _, c1) =>
      ({ sync := sync1, client := c1 }, "Prompt saved to Google Drive")
    | (.error _, c1) =>
      ({ sync := sync1, client := c1 }, "Prompt saved locally. Google Drive sync failed.")
  else
    ({ sync := sync1, client := w.client }, "Prompt saved locally. Google Drive not available.")

/-- popup.js `savePrompt()` (the part after reading the form fields): trim
the inputs, validate — on rejection, toast the reason and return with
nothing written — otherwise commit locally and best-effort remotely.
The returned string is the toast message.  The function is total: in the JS
source every failure of the remote phase is caught by the inner
`catch (driveError)`, so no exception escapes the handler. -/
def savePromptFlow (env : NetEnv) (fuel : Nat) (hasDrive : Bool) (w : World)
    (nameRaw textRaw tagsRaw : String) (nowMs : Nat) (nowIso : String) :
    World × String :=
  match validatePrompt (jsTrim nameRaw) (jsTrim textRaw) with
  | some validationError => (w, validationError)
  | none => savePromptCommit env fuel hasDrive w nameRaw textRaw tagsRaw nowMs nowIso

/-! ### Concrete fixtures for witnesses and counterexamples -/

/-- Sample prompt with id 1 ("the local entry"). -/
def promptL1 : Prompt := { id := 1, name := "greeting", text := "hello", tags := [] }

/-- Sample prompt with id 1 but different content ("the remote entry"). -/
def promptR1 : Prompt := { id := 1, name := "greeting", text := "hello from drive", tags := [] }

/-- Sample prompt with id 2. -/
def promptR2 : Prompt := { id := 2, name := "farewell", text := "bye", tags := ["t"] }

/-- An environment whose first two requests resolve the folder and the file
and whose third request (the media download of `getPrompts`, equally the
upload of `savePrompts`) yields `r`; outcomes from the fourth request on
are arbitrary (`rest`), which lets theorems state that the client never
looks past its single attempt. -/
def envMedia (r : FetchResult) (rest : Nat → FetchResult) : NetEnv :=
  { token := .ok "tok",
    net := fun k =>
      if k = 0 then .success { ok := true, status := 200, body := .filesList ["folder-1"] }
      else if k = 1 then .success { ok := true, status := 200, body := .filesList ["file-1"] }
      else if k = 2 then r
      else rest k }

/-- Client state after the folder/file resolution of `envMedia` plus the
third request. -/
def mediaClient : ClientState :=
  { folderId := some "folder-1", fileId := some "file-1", reqCount := 3 }

/-- What the tail of `getPromptsAux` makes of the media-request outcome
(used only to state evaluation lemmas about `envMedia`). -/
def mediaResult : FetchResult → Except DriveError MediaDoc
  | .netError m => .error (.net m)
  | .success resp =>
    if resp.ok = false then
      if resp.status = 404 then .ok (.arr []) else .error (.http resp.status)
    else
      match resp.body with
      | .emptyBody => .ok (.arr [])
      | .notJson _ => .error .decode
      | .promptsJson ps => .ok (.arr ps)
      | b => .ok (.nonArr b)

/-- An environment whose very first request already fails with a transport
error, the later outcomes being arbitrary. -/
def envFirstFail (m : String) (rest : Nat → FetchResult) : NetEnv :=
  { token := .ok "tok", net := fun k => if k = 0 then .netError m else rest k }

/-- Scripted run for the retry counterexample: folder and file resolve, the
upload request fails with a transport error, and — had anyone retried — the
following requests would all have succeeded. -/
def envRetryWouldSucceed : NetEnv :=
  { token := .ok "tok",
    net := fun k =>
      match k with
      | 0 => .success { ok := true, status := 200, body := .filesList ["folder-1"] }
      | 1 => .success { ok := true, status := 200, body := .filesList ["file-1"] }
      | 2 => .netError "network down"
      | 3 => .success { ok := true, status := 200, body := .filesList ["folder-1"] }
      | 4 => .success { ok := true, status := 200, body := .filesList ["file-1"] }
      | _ => .success { ok := true, status := 200, body := .emptyBody } }

/-- Environment realising the spec's decode-failure scenario: the remote
document body is the string `"not json"`. -/
def envNotJson : NetEnv :=
  envMedia (.success { ok := true, status := 200, body := .notJson "not json" })
    (fun _ => .success { ok := true, status := 200, body := .emptyBody })

/-- Environment in which the credential provider rejects. -/
def envAuthDenied : NetEnv :=
  { token := .error "OAuth2 not granted or revoked.", net := fun _ => .netError "unused" }

/-- Environment in which the remote store is unreachable: every request
fails with a transport error. -/
def envDown : NetEnv := { token := .ok "tok", net := fun _ => .netError "network down" }

/-- Popup state holding the single prompt `{id: 1}` in memory and in the
Local Cache, with a fresh drive client. -/
def sampleWorld : World :=
  { sync := { currentPrompts := [promptL1],
              cache := { prompts := [promptL1], lastSync := none } },
    client := initialClient }

/-! ### Lemmas about the JS Map model (`mapGet`) -/

theorem mapGet_go_eq_of_forall_ne (i : Nat) (ps : List Prompt) :
    ∀ (acc : Option Prompt), (∀ p ∈ ps, p.id ≠ i) →
      ps.foldl (fun acc p => if p.id = i then some p else acc) acc = acc := by
  induction ps with
  | nil => intro acc _; rfl
  | cons p ps ih =>
    intro acc h
    simp only [List.foldl_cons]
    rw [if_neg (h p (List.mem_cons_self p ps))]
    exact ih acc (fun q hq => h q (List.mem_cons_of_mem p hq))

theorem mapGet_go_some (i : Nat) (ps : List Prompt) :
    ∀ (acc : Option Prompt) (q : Prompt),
      ps.foldl (fun acc p => if p.id = i then some p else acc) acc = some q →
      (q ∈ ps ∧ q.id = i) ∨ acc = some q := by
  induction ps with
  | nil => intro acc q h; exact Or.inr h
  | cons p ps ih =>
    intro acc q h
    simp only [List.foldl_cons] at h
    rcases ih _ q h with hmem | hacc
    · exact Or.inl ⟨List.mem_cons_of_mem p hmem.1, hmem.2⟩
    · by_cases hp : p.id = i
      · rw [if_pos hp] at hacc
        exact Or.inl ⟨(Option.some.inj hacc) ▸ List.mem_cons_self p ps,
          (Option.some.inj hacc) ▸ hp⟩
      · rw [if_neg hp] at hacc
        exact Or.inr hacc

theorem mapGet_go_of_nodup (i : Nat) (ps : List Prompt) :
    ∀ (acc : Option Prompt) (q : Prompt), (ps.map Prompt.id).Nodup → q ∈ ps → q.id = i →
      ps.foldl (fun acc p => if p.id = i then some p else acc) acc = some q := by
  induction ps with
  | nil => intro acc q _ hq _; exact absurd hq (List.not_mem_nil q)
  | cons p ps ih =>
    intro acc q hnd hq hqi
    rw [List.map_cons, List.nodup_cons] at hnd
    simp only [List.foldl_cons]
    rcases List.mem_cons.mp hq with rfl | hq
    · rw [if_pos hqi]
      exact mapGet_go_eq_of_forall_ne i ps (some q)
        (fun r hr hri => hnd.1 (hqi ▸ hri ▸ List.mem_map_of_mem Prompt.id hr))
    · have hp : p.id ≠ i := fun hpi =>
        hnd.1 (hpi ▸ hqi ▸ (hqi ▸ List.mem_map_of_mem Prompt.id hq))
      rw [if_neg hp]
      exact ih acc q hnd.2 hq hqi

theorem mapGet_go_isSome (i : Nat) (ps : List Prompt) :
    ∀ (acc : Option Prompt), i ∈ ps.map Prompt.id →
      ∃ q, ps.foldl (fun acc p => if p.id = i then some p else acc) acc = some q ∧
        q ∈ ps ∧ q.id = i := by
  induction ps with
  | nil => intro acc h; exact absurd h (List.not_mem_nil i)
  | cons p ps ih =>
    intro acc hmem
    by_cases hips : i ∈ ps.map Prompt.id
    · obtain ⟨q, h1, h2, h3⟩ := ih _ hips
      exact ⟨q, by simpa only [List.foldl_cons] using h1, List.mem_cons_of_mem p h2, h3⟩
    · have hpi : p.id = i := by
        rcases List.mem_cons.mp (by simpa only [List.map_cons] using hmem) with h | h
        · exact h.symm
        · exact absurd h hips
      refine ⟨p, ?_, List.mem_cons_self p ps, hpi⟩
      simp only [List.foldl_cons, if_pos hpi]
      exact mapGet_go_eq_of_forall_ne i ps (some p)
        (fun r hr hri => hips (hri ▸ List.mem_map_of_mem Prompt.id hr))

theorem mapGet_some_spec {ps : List Prompt} {i : Nat} {q : Prompt}
    (h : mapGet ps i = some q) : q ∈ ps ∧ q.id = i :=
  (mapGet_go_some i ps none q h).resolve_right (fun hh => Option.noConfusion hh)

theorem mapGet_of_nodup {ps : List Prompt} {q : Prompt}
    (hnd : (ps.map Prompt.id).Nodup) (hq : q ∈ ps) : mapGet ps q.id = some q :=
  mapGet_go_of_nodup q.id ps none q hnd hq rfl

theorem mapGet_isSome_of_mem {ps : List Prompt} {i : Nat}
    (h : i ∈ ps.map Prompt.id) : ∃ q, mapGet ps i = some q ∧ q ∈ ps ∧ q.id = i :=
  mapGet_go_isSome i ps none h

theorem mapGet_eq_none_of_not_mem {ps : List Prompt} {i : Nat}
    (h : i ∉ ps.map Prompt.id) : mapGet ps i = none :=
  mapGet_go_eq_of_forall_ne i ps none
    (fun p hp hpi => h (hpi ▸ List.mem_map_of_mem Prompt.id hp))

/-! ### Lemmas about the JS Set model (`setDedup`) -/

theorem mem_setDedupAux (xs : List Nat) :
    ∀ (seen : List Nat) (i : Nat), i ∈ setDedupAux seen xs ↔ (i ∈ xs ∧ i ∉ seen) := by
  induction xs with
  | nil => intro seen i; simp [setDedupAux]
  | cons x xs ih =>
    intro seen i
    simp only [setDedupAux]
    by_cases hx : x ∈ seen
    · rw [if_pos hx, ih seen i]
      constructor
      · exact fun h => ⟨List.mem_cons_of_mem x h.1, h.2⟩
      · rintro ⟨h1, h2⟩
        rcases List.mem_cons.mp h1 with rfl | h1
        · exact absurd hx h2
        · exact ⟨h1, h2⟩
    · rw [if_neg hx]
      constructor
      · intro h
        rcases List.mem_cons.mp h with rfl | h
        · exact ⟨List.mem_cons_self i xs, hx⟩
        · obtain ⟨h1, h2⟩ := (ih (x :: seen) i).mp h
          exact ⟨List.mem_cons_of_mem x h1,
            fun hs => h2 (List.mem_cons_of_mem x hs)⟩
      · rintro ⟨h1, h2⟩
        by_cases hix : i = x
        · exact hix ▸ List.mem_cons_self x _
        · rcases List.mem_cons.mp h1 with rfl | h1
          · exact absurd rfl hix
          · exact List.mem_cons_of_mem x ((ih (x :: seen) i).mpr
              ⟨h1, fun hs => (List.mem_cons.mp hs).elim hix h2⟩)

theorem nodup_setDedupAux (xs : List Nat) :
    ∀ (seen : List Nat), (setDedupAux seen xs).Nodup := by
  induction xs with
  | nil => intro seen; exact List.nodup_nil
  | cons x xs ih =>
    intro seen
    simp only [setDedupAux]
    by_cases hx : x ∈ seen
    · rw [if_pos hx]; exact ih seen
    · rw [if_neg hx]
      exact List.nodup_cons.mpr
        ⟨fun hmem => ((mem_setDedupAux xs (x :: seen) x).mp hmem).2 (List.mem_cons_self x seen),
         ih (x :: seen)⟩

theorem mem_setDedup {xs : List Nat} {i : Nat} : i ∈ setDedup xs ↔ i ∈ xs := by
  rw [setDedup, mem_setDedupAux]
  simp

theorem nodup_setDedup (xs : List Nat) : (setDedup xs).Nodup := nodup_setDedupAux xs []

/-! ### Lemmas about the merge body and the sort -/

theorem mergeLookup_some_spec {c d : List Prompt} {i : Nat} {q : Prompt}
    (h : mergeLookup c d i = some q) : (q ∈ c ∨ q ∈ d) ∧ q.id = i := by
  unfold mergeLookup at h
  cases hd : mapGet d i with
  | some p =>
    rw [hd] at h
    obtain ⟨hmem, hid⟩ := mapGet_some_spec hd
    cases h
    exact ⟨Or.inr hmem, hid⟩
  | none =>
    rw [hd] at h
    obtain ⟨hmem, hid⟩ := mapGet_some_spec h
    exact ⟨Or.inl hmem, hid⟩

theorem mergeLookup_isSome {c d : List Prompt} {i : Nat}
    (h : i ∈ c.map Prompt.id ∨ i ∈ d.map Prompt.id) :
    ∃ q, mergeLookup c d i = some q ∧ q.id = i := by
  unfold mergeLookup
  by_cases hid : i ∈ d.map Prompt.id
  · obtain ⟨q, hq, _, hqi⟩ := mapGet_isSome_of_mem hid
    exact ⟨q, by rw [hq], hqi⟩
  · rw [mapGet_eq_none_of_not_mem hid]
    obtain ⟨q, hq, _, hqi⟩ := mapGet_isSome_of_mem (h.resolve_right hid)
    exact ⟨q, by rw [hq], hqi⟩

theorem mergeLookup_drive {c d : List Prompt} {q : Prompt}
    (hd : (d.map Prompt.id).Nodup) (hq : q ∈ d) : mergeLookup c d q.id = some q := by
  unfold mergeLookup
  rw [mapGet_of_nodup hd hq]

theorem map_id_filterMap (g : Nat → Option Prompt) :
    ∀ (ids : List Nat), (∀ i ∈ ids, ∃ p, g i = some p ∧ p.id = i) →
      (ids.filterMap g).map Prompt.id = ids := by
  intro ids
  induction ids with
  | nil => intro _; rfl
  | cons i ids ih =>
    intro h
    obtain ⟨p, hp, hpi⟩ := h i (List.mem_cons_self i ids)
    rw [List.filterMap_cons, hp, List.map_cons, hpi,
      ih (fun j hj => h j (List.mem_cons_of_mem i hj))]

instance : IsTotal Prompt (fun a b => b.id ≤ a.id) :=
  ⟨fun a b => Nat.le_total b.id a.id⟩

instance : IsTrans Prompt (fun a b => b.id ≤ a.id) :=
  ⟨fun _ _ _ h1 h2 => Nat.le_trans h2 h1⟩

theorem sortByIdDesc_perm (ps : List Prompt) : (sortByIdDesc ps).Perm ps :=
  List.perm_insertionSort _ ps

theorem sortByIdDesc_sorted (ps : List Prompt) :
    (sortByIdDesc ps).Pairwise (fun a b => b.id ≤ a.id) :=
  List.sorted_insertionSort _ ps

theorem pairwise_lt_of_le_nodup {l : List Prompt}
    (hn : (l.map Prompt.id).Nodup) (hle : l.Pairwise (fun a b => b.id ≤ a.id)) :
    l.Pairwise (fun a b => b.id < a.id) := by
  have hne : l.Pairwise (fun a b => a.id ≠ b.id) := List.pairwise_map.mp hn
  exact (hle.and hne).imp (fun h => Nat.lt_of_le_of_ne h.1 (fun hh => h.2 hh.symm))

/-- `mergePrompts` on two non-empty collections in its unfolded form. -/
theorem mergePrompts_eq {c d : List Prompt} (hc : c ≠ []) (hd : d ≠ []) :
    mergePrompts c d =
      sortByIdDesc ((setDedup (c.map Prompt.id ++ d.map Prompt.id)).filterMap
        (mergeLookup c d)) := by
  match c, hc, d, hd with
  | _ :: _, _, _ :: _, _ => rfl

/-- The ids of the union list are exactly the deduplicated concatenation of
the input id lists. -/
theorem merged_map_id (c d : List Prompt) :
    ((setDedup (c.map Prompt.id ++ d.map Prompt.id)).filterMap (mergeLookup c d)).map
      Prompt.id = setDedup (c.map Prompt.id ++ d.map Prompt.id) := by
  refine map_id_filterMap _ _ (fun i hi => ?_)
  exact mergeLookup_isSome (List.mem_append.mp (mem_setDedup.mp hi))

/-- The ids of `mergePrompts c d` (both non-empty) are pairwise distinct. -/
theorem mergePrompts_nodup_ids {c d : List Prompt} (hc : c ≠ []) (hd : d ≠ []) :
    ((mergePrompts c d).map Prompt.id).Nodup := by
  rw [mergePrompts_eq hc hd]
  have hperm := (sortByIdDesc_perm
    ((setDedup (c.map Prompt.id ++ d.map Prompt.id)).filterMap (mergeLookup c d))).map
      Prompt.id
  rw [hperm.nodup_iff, merged_map_id]
  exact nodup_setDedup _

/-- `mergePrompts` on two non-empty collections is strictly descending
by id. -/
theorem mergePrompts_pairwise_lt {c d : List Prompt} (hc : c ≠ []) (hd : d ≠ []) :
    (mergePrompts c d).Pairwise (fun a b => b.id < a.id) := by
  refine pairwise_lt_of_le_nodup (mergePrompts_nodup_ids hc hd) ?_
  rw [mergePrompts_eq hc hd]
  exact sortByIdDesc_sorted _

/-- Membership in `mergePrompts c d` (both non-empty): exactly the images of
the union ids under the merge body. -/
theorem mem_mergePrompts_iff {c d : List Prompt} (hc : c ≠ []) (hd : d ≠ []) {r : Prompt} :
    r ∈ mergePrompts c d ↔
      ∃ i, (i ∈ c.map Prompt.id ∨ i ∈ d.map Prompt.id) ∧ mergeLookup c d i = some r := by
  rw [mergePrompts_eq hc hd,
    (sortByIdDesc_perm ((setDedup (c.map Prompt.id ++ d.map Prompt.id)).filterMap
      (mergeLookup c d))).mem_iff, List.mem_filterMap]
  constructor
  · rintro ⟨i, hi, hlook⟩
    exact ⟨i, List.mem_append.mp (mem_setDedup.mp hi), hlook⟩
  · rintro ⟨i, hi, hlook⟩
    exact ⟨i, mem_setDedup.mpr (List.mem_append.mpr hi), hlook⟩

theorem mergePrompts_nil_left (d : List Prompt) : mergePrompts [] d = d := rfl

theorem mergePrompts_nil_right (c : List Prompt) : mergePrompts c [] = c := by
  cases c with
  | nil => rfl
  | cons a as => rfl

/-! ### Claim C3 — remote-wins -/

/-- C3: for every id present in both the local and the remote input
collections with differing content (under the §3 invariant that each id
occurs at most once per collection), the merged output contains the remote
entry for that id, does not contain the local entry, and every output entry
carrying that id *is* the remote entry — never the local one. -/
theorem c3_remote_wins (c d : List Prompt) (p q : Prompt)
    (hc : (c.map Prompt.id).Nodup) (hd : (d.map Prompt.id).Nodup)
    (hp : p ∈ c) (hq : q ∈ d) (hid : p.id = q.id) (hne : p ≠ q) :
    q ∈ mergePrompts c d ∧ p ∉ mergePrompts c d ∧
      ∀ r ∈ mergePrompts c d, r.id = q.id → r = q := by
  have hcne : c ≠ [] := List.ne_nil_of_mem hp
  have hdne : d ≠ [] := List.ne_nil_of_mem hq
  have huniq : ∀ r ∈ mergePrompts c d, r.id = q.id → r = q := by
    intro r hr hrid
    obtain ⟨i, _, hlook⟩ := (mem_mergePrompts_iff hcne hdne).mp hr
    have hspec := mergeLookup_some_spec hlook
    have hq2 : mergeLookup c d i = some q := by
      rw [← hspec.2, hrid]
      exact mergeLookup_drive hd hq
    rw [hlook] at hq2
    exact Option.some.inj hq2
  refine ⟨?_, ?_, huniq⟩
  · exact (mem_mergePrompts_iff hcne hdne).mpr
      ⟨q.id, Or.inr (List.mem_map_of_mem Prompt.id hq), mergeLookup_drive hd hq⟩
  · intro hpm
    exact hne (huniq p hpm hid)

/-- Witness for C3 at the concrete collision on id 1. -/
theorem c3_remote_wins_witness :
    promptR1 ∈ mergePrompts [promptL1] [promptR1, promptR2] ∧
    promptL1 ∉ mergePrompts [promptL1] [promptR1, promptR2] ∧
    ∀ r ∈ mergePrompts [promptL1] [promptR1, promptR2], r.id = promptR1.id → r = promptR1 :=
  c3_remote_wins [promptL1] [promptR1, promptR2] promptL1 promptR1
    (by decide) (by decide) (by decide) (by decide) rfl (by decide)

/-! ### Claim C4 — union by id -/

/-- C4: when each id occurs at most once per input collection, the merged
output carries each id of either input exactly once and carries no other
id: the count of any id among the output's ids is 1 if the id occurs in
either input and 0 otherwise. -/
theorem c4_union_by_id (c d : List Prompt)
    (hc : (c.map Prompt.id).Nodup) (hd : (d.map Prompt.id).Nodup) (i : Nat) :
    ((mergePrompts c d).map Prompt.id).count i =
      if i ∈ c.map Prompt.id ∨ i ∈ d.map Prompt.id then 1 else 0 := by
  by_cases hcn : c = []
  · subst hcn
    rw [mergePrompts_nil_left]
    by_cases him : i ∈ d.map Prompt.id
    · rw [if_pos (Or.inr him)]
      exact List.count_eq_one_of_mem hd him
    · rw [if_neg (fun h => h.elim (List.not_mem_nil i) him)]
      exact List.count_eq_zero.mpr him
  · by_cases hdn : d = []
    · subst hdn
      rw [mergePrompts_nil_right]
      by_cases him : i ∈ c.map Prompt.id
      · rw [if_pos (Or.inl him)]
        exact List.count_eq_one_of_mem hc him
      · rw [if_neg (fun h => h.elim him (List.not_mem_nil i))]
        exact List.count_eq_zero.mpr him
    · have hperm : ((mergePrompts c d).map Prompt.id).Perm
          (setDedup (c.map Prompt.id ++ d.map Prompt.id)) := by
        rw [mergePrompts_eq hcn hdn]
        have h1 := (sortByIdDesc_perm
          ((setDedup (c.map Prompt.id ++ d.map Prompt.id)).filterMap
            (mergeLookup c d))).map Prompt.id
        rw [merged_map_id] at h1
        exact h1
      rw [hperm.count_eq i]
      by_cases him : i ∈ c.map Prompt.id ∨ i ∈ d.map Prompt.id
      · rw [if_pos him]
        exact List.count_eq_one_of_mem (nodup_setDedup _)
          (mem_setDedup.mpr (List.mem_append.mpr him))
      · rw [if_neg him]
        exact List.count_eq_zero.mpr
          (fun hmem => him (List.mem_append.mp (mem_setDedup.mp hmem)))

/-- Witness for C4: id 2 occurs exactly once in the output, the absent id 3
does not occur. -/
theorem c4_union_by_id_witness :
    ((mergePrompts [promptL1] [promptR1, promptR2]).map Prompt.id).count 2 = 1 ∧
    ((mergePrompts [promptL1] [promptR1, promptR2]).map Prompt.id).count 3 = 0 := by
  have h2 := c4_union_by_id [promptL1] [promptR1, promptR2] (by decide) (by decide) 2
  have h3 := c4_union_by_id [promptL1] [promptR1, promptR2] (by decide) (by decide) 3
  rw [if_pos (by decide)] at h2
  rw [if_neg (by decide)] at h3
  exact ⟨h2, h3⟩

/-! ### Claim C5 — descending-id ordering (corrected) -/

/-- C5 as stated is false: when one input is empty, `mergePrompts` returns
the other input unchanged, so an unsorted remote collection passes through
unsorted.  Concretely, merging the empty local collection with the
ascending remote collection `[{id:1}, {id:2}]` is not sorted by strictly
descending id. -/
theorem c5_ordering_counterexample :
    ¬ (mergePrompts [] [promptR1, promptR2]).Pairwise (fun a b => b.id < a.id) := by
  decide

/-- C5 amended: when both inputs are non-empty the output of `mergePrompts`
is sorted by strictly descending id; when either input is empty, the other
input is returned unchanged (and hence in its original order). -/
theorem c5_ordering_amended :
    (∀ c d : List Prompt, c ≠ [] → d ≠ [] →
        (mergePrompts c d).Pairwise (fun a b => b.id < a.id)) ∧
    (∀ d : List Prompt, mergePrompts [] d = d) ∧
    (∀ c : List Prompt, mergePrompts c [] = c) :=
  ⟨fun _ _ hc hd => mergePrompts_pairwise_lt hc hd,
   mergePrompts_nil_left, mergePrompts_nil_right⟩

/-- Witness for C5 (amended) on two concrete non-empty inputs. -/
theorem c5_ordering_amended_witness :
    (mergePrompts [promptL1] [promptR2]).Pairwise (fun a b => b.id < a.id) :=
  c5_ordering_amended.1 [promptL1] [promptR2] (by decide) (by decide)

/-! ### Claim C6 — merge idempotence -/

/-- C6: merging a collection (each id occurring at most once, per the §3
invariant) with itself yields the same entries, ordered by descending id. -/
theorem c6_merge_idempotent (X : List Prompt) (hX : (X.map Prompt.id).Nodup) :
    (mergePrompts X X).Perm X ∧ (mergePrompts X X).Pairwise (fun a b => b.id < a.id) := by
  by_cases hXn : X = []
  · subst hXn
    exact ⟨List.Perm.refl _, List.Pairwise.nil⟩
  · refine ⟨?_, mergePrompts_pairwise_lt hXn hXn⟩
    have hnodX : X.Nodup := List.Nodup.of_map Prompt.id hX
    have hnodM : (mergePrompts X X).Nodup :=
      List.Nodup.of_map Prompt.id (mergePrompts_nodup_ids hXn hXn)
    rw [List.perm_ext_iff_of_nodup hnodM hnodX]
    intro a
    constructor
    · intro ha
      obtain ⟨i, _, hlook⟩ := (mem_mergePrompts_iff hXn hXn).mp ha
      exact ((mergeLookup_some_spec hlook).1).elim id id
    · intro ha
      exact (mem_mergePrompts_iff hXn hXn).mpr
        ⟨a.id, Or.inl (List.mem_map_of_mem Prompt.id ha), mergeLookup_drive hX ha⟩

/-- Witness for C6 on a concrete two-element collection given in ascending
order. -/
theorem c6_merge_idempotent_witness :
    (mergePrompts [promptL1, promptR2] [promptL1, promptR2]).Perm [promptL1, promptR2] ∧
    (mergePrompts [promptL1, promptR2] [promptL1, promptR2]).Pairwise
      (fun a b => b.id < a.id) :=
  c6_merge_idempotent [promptL1, promptR2] (by decide)

/-! ### Evaluation lemmas for the remote store client -/

theorem getPrompts_of_aux_error {env : NetEnv} {fuel : Nat} {s : ClientState}
    {e : DriveError} {s1 : ClientState} (h : getPromptsAux env fuel s = (.error e, s1)) :
    getPrompts env fuel s = (.arr [], s1) := by
  unfold getPrompts
  rw [h]

theorem getPrompts_of_aux_ok {env : NetEnv} {fuel : Nat} {s : ClientState}
    {d : MediaDoc} {s1 : ClientState} (h : getPromptsAux env fuel s = (.ok d, s1)) :
    getPrompts env fuel s = (d, s1) := by
  unfold getPrompts
  rw [h]

/-- Under `envMedia`, the folder/file resolution succeeds after two
requests, never touching the media outcome or the tail. -/
theorem fOCF_envMedia (r : FetchResult) (rest : Nat → FetchResult) (fuel : Nat) :
    findOrCreateFile (envMedia r rest) (fuel + 1) initialClient =
      (.ok (some "file-1"),
       { folderId := some "folder-1", fileId := some "file-1", reqCount := 2 }) := rfl

/-- Under `envMedia`, `getPromptsAux` ends as the tail of its code dictates
on the media outcome alone, with exactly three requests issued. -/
theorem getPromptsAux_envMedia (r : FetchResult) (rest : Nat → FetchResult) (fuel : Nat) :
    getPromptsAux (envMedia r rest) (fuel + 1) initialClient = (mediaResult r, mediaClient) := by
  cases r with
  | netError m => rfl
  | success resp =>
    rcases resp with ⟨ok, status, body⟩
    cases ok with
    | true => cases body <;> rfl
    | false =>
      have h0 : getPromptsAux (envMedia (.success ⟨false, status, body⟩) rest) (fuel + 1)
          initialClient =
          (if status = 404 then (Except.ok (MediaDoc.arr []), mediaClient)
           else (Except.error (DriveError.http status), mediaClient)) := rfl
      rw [h0]
      by_cases h : status = 404 <;> simp [mediaResult, h]

/-! ### Evaluation lemmas on an unreachable network -/

theorem findOrCreateFolder_offline {net : Nat → FetchResult} {m : String} (t : String)
    (hnet : ∀ k, net k = .netError m) (s : ClientState) :
    findOrCreateFolder ⟨.ok t, net⟩ s =
      (.error (.net m), { s with reqCount := s.reqCount + 1 }) := by
  simp [findOrCreateFolder, getAuthToken, doFetch, hnet]

theorem findOrCreateFile_offline {net : Nat → FetchResult} {m : String} (t : String)
    (hnet : ∀ k, net k = .netError m) (fuel : Nat) (s : ClientState) :
    ∃ e s2, findOrCreateFile ⟨.ok t, net⟩ fuel s = (.error e, s2) := by
  cases fuel with
  | zero => exact ⟨.tooDeep, s, rfl⟩
  | succ n =>
    exact ⟨.net m, { s with reqCount := s.reqCount + 1 },
      by simp [findOrCreateFile, getAuthToken, findOrCreateFolder_offline t hnet s]⟩

theorem getPromptsAux_offline {net : Nat → FetchResult} {m : String}
    (tok : Except String String) (hnet : ∀ k, net k = .netError m)
    (fuel : Nat) (s : ClientState) :
    ∃ e s2, getPromptsAux ⟨tok, net⟩ fuel s = (.error e, s2) := by
  cases tok with
  | error tm => exact ⟨.auth tm, s, rfl⟩
  | ok t =>
    obtain ⟨e, s2, hf⟩ := findOrCreateFile_offline t hnet fuel s
    exact ⟨e, s2, by simp [getPromptsAux, getAuthToken, hf]⟩

theorem getPrompts_offline {net : Nat → FetchResult} {m : String}
    (tok : Except String String) (hnet : ∀ k, net k = .netError m)
    (fuel : Nat) (s : ClientState) :
    ∃ s2, getPrompts ⟨tok, net⟩ fuel s = (.arr [], s2) := by
  obtain ⟨e, s2, h⟩ := getPromptsAux_offline tok hnet fuel s
  exact ⟨s2, getPrompts_of_aux_error h⟩

theorem savePrompts_offline {net : Nat → FetchResult} {m : String}
    (tok : Except String String) (hnet : ∀ k, net k = .netError m)
    (fuel : Nat) (ps : List Prompt) (s : ClientState) :
    ∃ e s2, savePrompts ⟨tok, net⟩ fuel ps s = (.error e, s2) := by
  cases tok with
  | error tm => exact ⟨.auth tm, s, rfl⟩
  | ok t =>
    obtain ⟨e, s2, hf⟩ := findOrCreateFile_offline t hnet fuel s
    exact ⟨e, s2, by simp [savePrompts, getAuthToken, hf]⟩

theorem addPrompt_offline {net : Nat → FetchResult} {m : String}
    (tok : Except String String) (hnet : ∀ k, net k = .netError m)
    (fuel : Nat) (p : Prompt) (s : ClientState) :
    ∃ e s2, addPrompt ⟨tok, net⟩ fuel p s = (.error e, s2) := by
  obtain ⟨s1, hg⟩ := getPrompts_offline tok hnet fuel s
  obtain ⟨e, s2, hs⟩ := savePrompts_offline tok hnet fuel [p] s1
  exact ⟨e, s2, by simp [addPrompt, hg, hs]⟩

/-- `validatePrompt` rejects exactly under one of the claimed conditions. -/
theorem validatePrompt_some_of (name text : String)
    (h : name = "" ∨ text = "" ∨ MAX_NAME_LENGTH < name.length ∨
      MAX_PROMPT_LENGTH < text.length) :
    ∃ reason, validatePrompt name text = some reason := by
  unfold validatePrompt
  split_ifs with h1 h2 h3
  · exact ⟨_, rfl⟩
  · exact ⟨_, rfl⟩
  · exact ⟨_, rfl⟩
  · rcases h with h | h | h | h
    · exact absurd (Or.inl h) h1
    · exact absurd (Or.inr h) h1
    · exact absurd h h2
    · exact absurd h h3

/-! ### Claim C1 — retry with backoff (corrected) -/

/-- C1 as stated is false: no remote-store operation retries anything.
In `envRetryWouldSucceed` the upload request fails once with a transport
error while every later request would succeed, so a client honouring the
claimed 3-attempt linear-backoff policy (`specRetrySavePrompts`, modelled
from the spec) succeeds on its second attempt — but the code's
`savePrompts` surfaces that first transport error directly, having issued
only the three requests of a single pass. -/
theorem c1_retry_counterexample :
    (savePrompts envRetryWouldSucceed 9 [] initialClient).1 = .error (.net "network down") ∧
    (savePrompts envRetryWouldSucceed 9 [] initialClient).2.reqCount = 3 ∧
    (specRetrySavePrompts envRetryWouldSucceed 9 [] initialClient).1 = .ok true :=
  ⟨rfl, rfl, rfl⟩

/-- C1 amended: the remote-store operations perform exactly one attempt and
no backoff delay: a transport failure of the upload surfaces directly from
`savePrompts` (and is swallowed into the empty collection by `getPrompts`),
and a transport failure of the very first search surfaces directly from the
locate-or-create step — in each case the result is independent of every
response a retry would have seen (`rest` is arbitrary), and the request
counter shows the failing request was issued exactly once. -/
theorem c1_no_retry_amended :
    (∀ (m : String) (rest : Nat → FetchResult) (ps : List Prompt) (fuel : Nat),
        savePrompts (envMedia (.netError m) rest) (fuel + 1) ps initialClient =
          (.error (.net m), mediaClient)) ∧
    (∀ (m : String) (rest : Nat → FetchResult) (fuel : Nat),
        getPrompts (envMedia (.netError m) rest) (fuel + 1) initialClient =
          (.arr [], mediaClient)) ∧
    (∀ (m : String) (rest : Nat → FetchResult),
        findOrCreateFolder (envFirstFail m rest) initialClient =
          (.error (.net m), { folderId := none, fileId := none, reqCount := 1 })) := by
  refine ⟨fun m rest ps fuel => rfl, fun m rest fuel => ?_, fun m rest => rfl⟩
  exact getPrompts_of_aux_error (getPromptsAux_envMedia (.netError m) rest fuel)

/-! ### Claim C2 — decode failure surfaced (corrected) -/

/-- C2 as stated is false in its first half: on the remote body
`"not json"` the decode failure does arise internally (`JSON.parse`
throws), but `getPrompts` — the `fetchCollection` of this code — catches
it and returns the empty collection, so the caller sees no decode error
(nor any error) at all. -/
theorem c2_decode_counterexample :
    (getPromptsAux envNotJson 9 initialClient).1 = .error .decode ∧
    (getPrompts envNotJson 9 initialClient).1 = .arr [] :=
  ⟨rfl, rfl⟩

/-- C2 amended: on the malformed remote body `"not json"`, the decode
failure is caught inside `getPrompts` and converted to the empty
collection, and the sync cycle that observes it leaves the prior in-memory
collection and the Local Cache (including its timestamp) unchanged. -/
theorem c2_decode_swallowed_amended :
    ∀ (st : SyncState) (now : Nat),
      getPrompts envNotJson 9 initialClient = (.arr [], mediaClient) ∧
      initializeDriveAPIStep st (getPrompts envNotJson 9 initialClient).1 now = st :=
  fun _ _ => ⟨rfl, rfl⟩

/-! ### Claim C9 — credential failure propagation (corrected) -/

/-- C9 as stated is false for `getPrompts`: a credential failure does reach
the operation internally, but its catch-all converts it to the empty
collection, so nothing propagates to the caller. -/
theorem c9_credential_counterexample :
    (getPromptsAux envAuthDenied 9 initialClient).1 =
      .error (.auth "OAuth2 not granted or revoked.") ∧
    (getPrompts envAuthDenied 9 initialClient).1 = .arr [] :=
  ⟨rfl, rfl⟩

/-- C9 amended: a credential failure is never retried — the client state
(in particular its request counter) is returned untouched, independent of
every network outcome, so no HTTP request is ever issued — and it surfaces
immediately to the caller of `savePrompts`, while `getPrompts` swallows it
and returns the empty collection. -/
theorem c9_credential_amended :
    ∀ (m : String) (net : Nat → FetchResult) (fuel : Nat) (ps : List Prompt)
      (s : ClientState),
      savePrompts ⟨.error m, net⟩ fuel ps s = (.error (.auth m), s) ∧
      getPrompts ⟨.error m, net⟩ fuel s = (.arr [], s) :=
  fun _ _ _ _ _ => ⟨rfl, rfl⟩

/-! ### Claim C10 — getPrompts is total (confirmed) -/

/-- C10: `getPrompts` never surfaces an error: whenever its `try` block
fails — for any reason whatsoever (first conjunct), and in particular on a
credential failure, a transport failure of the media request, a non-2xx
status (404 or not), or a malformed JSON body — it returns the empty
collection, exactly as it does for a 404. -/
theorem c10_getPrompts_total :
    (∀ (env : NetEnv) (fuel : Nat) (s : ClientState) (e : DriveError) (s1 : ClientState),
        getPromptsAux env fuel s = (.error e, s1) → getPrompts env fuel s = (.arr [], s1)) ∧
    (∀ (m : String) (net : Nat → FetchResult) (fuel : Nat) (s : ClientState),
        getPrompts ⟨.error m, net⟩ fuel s = (.arr [], s)) ∧
    (∀ (m : String) (rest : Nat → FetchResult) (fuel : Nat),
        (getPrompts (envMedia (.netError m) rest) (fuel + 1) initialClient).1 = .arr []) ∧
    (∀ (code : Nat) (b : RespBody) (rest : Nat → FetchResult) (fuel : Nat),
        (getPrompts (envMedia (.success ⟨false, code, b⟩) rest)
          (fuel + 1) initialClient).1 = .arr []) ∧
    (∀ (str : String) (rest : Nat → FetchResult) (fuel : Nat),
        (getPrompts (envMedia (.success ⟨true, 200, .notJson str⟩) rest)
          (fuel + 1) initialClient).1 = .arr []) := by
  refine ⟨fun env fuel s e s1 h => getPrompts_of_aux_error h,
    fun m net fuel s => rfl,
    fun m rest fuel => ?_,
    fun code b rest fuel => ?_,
    fun str rest fuel => ?_⟩
  · rw [getPrompts_of_aux_error (getPromptsAux_envMedia (.netError m) rest fuel)]
  · have haux := getPromptsAux_envMedia (.success ⟨false, code, b⟩) rest fuel
    by_cases h : code = 404
    · subst h
      rw [getPrompts_of_aux_ok haux]
    · have he : getPromptsAux (envMedia (.success ⟨false, code, b⟩) rest) (fuel + 1)
          initialClient = (.error (.http code), mediaClient) := by
        rw [haux]
        simp [mediaResult, h]
      rw [getPrompts_of_aux_error he]
  · rw [getPrompts_of_aux_error
      (getPromptsAux_envMedia (.success ⟨true, 200, .notJson str⟩) rest fuel)]

/-- Witness for C10: the catch-all conjunct applied to the concrete
credential-failure environment. -/
theorem c10_getPrompts_total_witness :
    getPrompts envAuthDenied 9 initialClient = (.arr [], initialClient) :=
  c10_getPrompts_total.1 envAuthDenied 9 initialClient
    (.auth "OAuth2 not granted or revoked.") initialClient rfl

/-! ### Claim C7 — validation rejects before any write (confirmed) -/

/-- C7: a create whose (trimmed) name or text is empty, whose name exceeds
200 characters, or whose text exceeds 10,000 characters is rejected by
`validatePrompt` with a specific reason string, returned synchronously as
the toast; the whole world — the in-memory collection, the Local Cache,
and the drive client (whose untouched request counter shows that no remote
request, hence no remote write, was issued) — is returned unchanged. -/
theorem c7_validation_rejected (env : NetEnv) (fuel : Nat) (hasDrive : Bool)
    (w : World) (nameRaw textRaw tagsRaw : String) (nowMs : Nat) (nowIso : String)
    (h : jsTrim nameRaw = "" ∨ jsTrim textRaw = "" ∨
      MAX_NAME_LENGTH < (jsTrim nameRaw).length ∨
      MAX_PROMPT_LENGTH < (jsTrim textRaw).length) :
    ∃ reason, validatePrompt (jsTrim nameRaw) (jsTrim textRaw) = some reason ∧
      savePromptFlow env fuel hasDrive w nameRaw textRaw tagsRaw nowMs nowIso =
        (w, reason) := by
  obtain ⟨reason, hr⟩ := validatePrompt_some_of _ _ h
  refine ⟨reason, hr, ?_⟩
  unfold savePromptFlow
  rw [hr]

/-- Witness for C7: creating with an empty name is rejected with the
missing-fields reason and changes nothing. -/
theorem c7_validation_rejected_witness :
    savePromptFlow envDown 9 true sampleWorld "" "some text" "tag" 5 "iso" =
      (sampleWorld, "Please provide both name and prompt text") := by
  obtain ⟨reason, hr, hflow⟩ := c7_validation_rejected envDown 9 true sampleWorld
    "" "some text" "tag" 5 "iso" (Or.inl (by decide))
  have hre : reason = "Please provide both name and prompt text" := by
    have h0 : validatePrompt (jsTrim "") (jsTrim "some text") =
        some "Please provide both name and prompt text" := by decide
    rw [h0] at hr
    exact (Option.some.inj hr).symm
  rw [hflow, hre]

/-! ### Claim C8 — create applies locally despite remote failure (confirmed) -/

/-- C8: creating a valid prompt while the remote store is unreachable
(every request fails with a transport error, whatever the credential
outcome) still sets both the in-memory collection and the Local Cache to
the new prompt consed onto the old collection, immediately and without
rollback; the remote failure surfaces only as the warning toast, and the
flow returns normally (it is a total function — in the source the inner
`catch (driveError)` confines the failure). -/
theorem c8_create_offline_local_first (m : String) (net : Nat → FetchResult)
    (tok : Except String String) (fuel : Nat) (w : World)
    (nameRaw textRaw tagsRaw : String) (nowMs : Nat) (nowIso : String)
    (hnet : ∀ k, net k = .netError m)
    (hvalid : validatePrompt (jsTrim nameRaw) (jsTrim textRaw) = none) :
    ∃ c1, savePromptFlow ⟨tok, net⟩ fuel true w nameRaw textRaw tagsRaw nowMs nowIso =
      ({ sync := { currentPrompts :=
                     newPromptOf nameRaw textRaw tagsRaw nowMs nowIso ::
                       w.sync.currentPrompts,
                   cache := { prompts :=
                                newPromptOf nameRaw textRaw tagsRaw nowMs nowIso ::
                                  w.sync.currentPrompts,
                              lastSync := some nowMs } },
         client := c1 },
       "Prompt saved locally. Google Drive sync failed.") := by
  obtain ⟨e, c1, hadd⟩ := addPrompt_offline tok hnet fuel
    (newPromptOf nameRaw textRaw tagsRaw nowMs nowIso) w.client
  refine ⟨c1, ?_⟩
  unfold savePromptFlow
  rw [hvalid]
  simp [savePromptCommit, hadd]

/-- Witness for C8: the spec's scenario — starting collection `[{id:1}]`,
creating `{id:2}` against an unreachable remote makes the in-memory
collection and the Local Cache `[{id:2}, {id:1}]` with the warning toast. -/
theorem c8_create_offline_local_first_witness :
    ∃ c1, savePromptFlow envDown 9 true sampleWorld "farewell" "bye" "t" 2 "iso" =
      ({ sync := { currentPrompts :=
                     newPromptOf "farewell" "bye" "t" 2 "iso" :: [promptL1],
                   cache := { prompts :=
                                newPromptOf "farewell" "bye" "t" 2 "iso" :: [promptL1],
                              lastSync := some 2 } },
         client := c1 },
       "Prompt saved locally. Google Drive sync failed.") :=
  c8_create_offline_local_first "network down" (fun _ => .netError "network down")
    (.ok "tok") 9 sampleWorld "farewell" "bye" "t" 2 "iso" (fun _ => rfl) (by decide)
